import Mathlib

/-!
Verification development for the WorldIndex read-only REST API
(`src/index.js`): a translation-aware aggregation layer over a
spreadsheet-style backing store.  The JavaScript source is shallowly
embedded: record field sets become association lists of JavaScript-like
values, the `||` fallback chains become an explicit first-truthy
operator, the semicolon/newline tabular parser and the numeric coercion
(`isNaN` / `parseFloat`) are modelled on decimal/hex number grammars,
and the TTL lookup cache becomes an explicit state machine with the
paginated fetch abstracted as its aggregated result.
-/

namespace WorldIndex

/-! ### String primitives

The JavaScript string methods used by the source (`split` on a single
separator character, `trim`, `toUpperCase`, `toLowerCase`,
`startsWith`, `substring(1)`) are given as structural functions over the
character list of the string; on the ASCII data of this service they
agree with the JavaScript methods. -/

/-- Accumulator loop of `jsSplit`. -/
def splitCharAux (sep : Char) : List Char → List Char → List String
  | [], acc => [String.mk acc.reverse]
  | c :: cs, acc =>
    if c = sep then String.mk acc.reverse :: splitCharAux sep cs []
    else splitCharAux sep cs (c :: acc)

/-- `s.split(sep)` for a one-character separator; the empty string
yields `[""]`. -/
def jsSplit (sep : Char) (s : String) : List String :=
  splitCharAux sep s.data []

/-- `s.trim()`. -/
def trimJs (s : String) : String :=
  String.mk (((s.data.dropWhile Char.isWhitespace).reverse.dropWhile
    Char.isWhitespace).reverse)

/-- `s.toUpperCase()`. -/
def toUpperJs (s : String) : String := String.mk (s.data.map Char.toUpper)

/-- `s.toLowerCase()`. -/
def toLowerJs (s : String) : String := String.mk (s.data.map Char.toLower)

/-- `s.startsWith('d')`. -/
def startsWithD (s : String) : Bool :=
  match s.data with
  | 'd' :: _ => true
  | _ => false

/-- `s.substring(1)`. -/
def substringFrom1 (s : String) : String :=
  match s.data with
  | [] => ""
  | _ :: cs => String.mk cs

/-- A stable insertion of `x` into a list ordered by the comparator
`le` ("`x` may come before `y`"). -/
def insertByLe {α : Type} (le : α → α → Bool) (x : α) : List α → List α
  | [] => [x]
  | y :: ys => if le x y then x :: y :: ys else y :: insertByLe le x ys

/-- A stable comparator sort, modelling `Array.prototype.sort`. -/
def sortByLe {α : Type} (le : α → α → Bool) : List α → List α
  | [] => []
  | x :: xs => insertByLe le x (sortByLe le xs)

/-- A JavaScript value as it occurs in Airtable record fields: a string,
an integer (e.g. `DataID`), or an array of strings (linked-record id
lists and lookup fields, the only array-valued fields this service
reads). -/
inductive JsVal where
  | str (s : String)
  | num (n : Int)
  | arr (xs : List String)
deriving DecidableEq, Repr

/-- The field set of one backing-store record (`rec.fields`): an
association list from field name to value; a missing key is JavaScript
`undefined`. -/
abbrev Fields := List (String × JsVal)

/-- `f[key]` on a fields object; `none` models `undefined`. -/
def Fields.get (f : Fields) (key : String) : Option JsVal :=
  (List.lookup key f)

/-- JavaScript truthiness of a defined value: the empty string and the
number 0 are falsy; every array (even empty) is truthy. -/
def JsVal.truthy : JsVal → Bool
  | .str s => !s.data.isEmpty
  | .num n => n != 0
  | .arr _ => true

/-- JavaScript truthiness including `undefined` (falsy). -/
def truthyO : Option JsVal → Bool
  | none => false
  | some v => v.truthy

/-- The JavaScript `a || b` operator over possibly-undefined values. -/
def jsOr (a b : Option JsVal) : Option JsVal :=
  if truthyO a then a else b

/-- A chain `v1 || v2 || ... || d`: the first truthy value, else the
default `d`. -/
def orChain (vs : List (Option JsVal)) (d : JsVal) : JsVal :=
  match vs with
  | [] => d
  | v :: rest => if truthyO v then v.getD d else orChain rest d

/-- From `getUnifiedData` (src/index.js line 302): the localized title of
the main record, `fields[titleKey] || fields.Title || fields.TitleEN || ""`
with `titleKey = "Title" + lang`. -/
def unifiedTitle (f : Fields) (lang : String) : JsVal :=
  orChain [f.get ("Title" ++ lang), f.get "Title", f.get "TitleEN"] (.str "")

/-- From `getUnifiedData` (src/index.js line 303): the localized
description, `fields[descKey] || fields.DescriptionEN || ""`. -/
def unifiedDescription (f : Fields) (lang : String) : JsVal :=
  orChain [f.get ("Description" ++ lang), f.get "DescriptionEN"] (.str "")

/-- From `getUnifiedData` (src/index.js line 304): the localized raw
tabular payload, `fields[dataKey] || fields.DataEN || ""`. -/
def unifiedDataField (f : Fields) (lang : String) : JsVal :=
  orChain [f.get ("Data" ++ lang), f.get "DataEN"] (.str "")

/-- `xs[0]` on a JavaScript array of strings, `undefined` when empty. -/
def jsHead : List String → Option JsVal
  | [] => none
  | v :: _ => some (.str v)

/-- From the `GET /data/:numericId` handler (src/index.js line 1659):
`meta.title` is `Array.isArray(f[titleKey]) ? f[titleKey][0] :
(f[titleKey] || (Array.isArray(f.Title) ? f.Title[0] : f.Title) ||
f.TitleEN || "")`.  The result is `undefined` only in the corner case of
an array-valued `Title{lang}` field that is empty. -/
def detailTitle (f : Fields) (lang : String) : Option JsVal :=
  match f.get ("Title" ++ lang) with
  | some (.arr xs) => jsHead xs
  | tLang =>
      let bare : Option JsVal :=
        match f.get "Title" with
        | some (.arr xs) => jsHead xs
        | v => v
      some (orChain [tLang, bare, f.get "TitleEN"] (.str ""))

/-- Modelling the claim's wording of the Localization Resolver: for a
non-EN language the value is the language-specific field, then the `EN`
variant, then the bare base name, then the empty string, in that
priority order. -/
def specResolveField (f : Fields) (base lang : String) : JsVal :=
  orChain [f.get (base ++ lang), f.get (base ++ "EN"), f.get base] (.str "")

/-! ### JavaScript number semantics

The cell coercion in the data parser is `isNaN(v) ? v : parseFloat(v)`
(src/index.js line 1772).  `isNaN(v)` converts with `Number(v)` (empty
string gives `0`; full-string decimal, hex, octal, binary and `Infinity`
literals are recognised), while `parseFloat(v)` parses the longest
decimal-literal prefix and yields `NaN` when there is none. -/

/-- Numeric value of a list of decimal digit characters. -/
def digitsVal (ds : List Char) : Nat :=
  ds.foldl (fun a c => 10 * a + (c.toNat - 48)) 0

def isHexDigit (c : Char) : Bool :=
  c.isDigit || ('a' ≤ c && c ≤ 'f') || ('A' ≤ c && c ≤ 'F')

def hexDigitVal (c : Char) : Nat :=
  if c.isDigit then c.toNat - 48
  else if 'a' ≤ c && c ≤ 'f' then c.toNat - 87
  else if 'A' ≤ c && c ≤ 'F' then c.toNat - 55
  else 0

/-- Value of a digit list in a given radix. -/
def radixVal (r : Nat) (ds : List Char) : Nat :=
  ds.foldl (fun a c => r * a + hexDigitVal c) 0

/-- The rational value `±(ip . fp) × 10 ^ e` of a parsed decimal
literal with integer-part digits `ip`, fraction digits `fp` and decimal
exponent `e`, assembled as one fraction. -/
def decToRat (neg : Bool) (ip fp : List Char) (e : Int) : ℚ :=
  let m : Int := digitsVal (ip ++ fp)
  let ms : Int := if neg then -m else m
  let k : Int := e - fp.length
  if 0 ≤ k then ((ms * 10 ^ k.toNat : Int) : ℚ) else mkRat ms (10 ^ (-k).toNat)

/-- A JavaScript number: finite (as an exact rational), infinite, and
`NaN` is represented by `Option.none` at use sites. -/
inductive JsNum where
  | fin (q : ℚ)
  | inf (pos : Bool)
deriving DecidableEq, Repr

/-- Longest-prefix parse of an unsigned decimal mantissa
(`digits [. digits*] | . digits+`): the integer-part digits, the
fraction digits and the unconsumed remainder. -/
def parseDecMantissa (cs : List Char) : Option ((List Char × List Char) × List Char) :=
  let (ip, r1) := cs.span (·.isDigit)
  match r1 with
  | '.' :: r2 =>
      let (fp, r3) := r2.span (·.isDigit)
      if ip.isEmpty && fp.isEmpty then none else some ((ip, fp), r3)
  | _ => if ip.isEmpty then none else some ((ip, []), r1)

/-- Longest-prefix parse of an optional exponent part
(`[eE] [+-]? digits+`); when absent, nothing is consumed. -/
def parseExpPart (cs : List Char) : Int × List Char :=
  match cs with
  | e :: rest =>
    if e = 'e' ∨ e = 'E' then
      match rest with
      | s :: rest2 =>
        if s = '+' ∨ s = '-' then
          let (ds, r) := rest2.span (·.isDigit)
          if ds.isEmpty then (0, cs)
          else (if s = '-' then -(digitsVal ds : Int) else (digitsVal ds : Int), r)
        else
          let (ds, r) := rest.span (·.isDigit)
          if ds.isEmpty then (0, cs) else ((digitsVal ds : Int), r)
      | [] => (0, cs)
    else (0, cs)
  | [] => (0, cs)

/-- Longest-prefix parse of a signed decimal literal or `Infinity`;
`none` when no prefix is a valid literal. -/
def parseSignedPrefix (cs : List Char) : Option (JsNum × List Char) :=
  let signed : Bool × List Char :=
    match cs with
    | '+' :: r => (false, r)
    | '-' :: r => (true, r)
    | _ => (false, cs)
  let neg := signed.1
  let cs1 := signed.2
  if cs1.take 8 = "Infinity".data then some (.inf !neg, cs1.drop 8)
  else
    match parseDecMantissa cs1 with
    | none => none
    | some (md, r1) =>
      let (e, r2) := parseExpPart r1
      some (.fin (decToRat neg md.1 md.2 e), r2)

/-- JavaScript `parseFloat` on a string: longest decimal-literal prefix
after leading whitespace; `none` is `NaN`. -/
def parseFloatJs (s : String) : Option JsNum :=
  match parseSignedPrefix (trimJs s).data with
  | none => none
  | some (v, _) => some v

/-- JavaScript `Number(s)` for a string: the whole (trimmed) string must
be a decimal, hex, octal, binary or `Infinity` literal; the empty string
is `0`; `none` is `NaN`. -/
def jsNumber (s : String) : Option JsNum :=
  let cs := (trimJs s).data
  let decimalFull : Option JsNum :=
    match parseSignedPrefix cs with
    | some (v, []) => some v
    | _ => none
  if cs.isEmpty then some (.fin 0)
  else
    match cs with
    | '0' :: x :: rest =>
      if (x = 'x' ∨ x = 'X') ∧ ¬rest.isEmpty ∧ rest.all isHexDigit then
        some (.fin (radixVal 16 rest))
      else if (x = 'o' ∨ x = 'O') ∧ ¬rest.isEmpty ∧ rest.all (fun c => '0' ≤ c && c ≤ '7') then
        some (.fin (radixVal 8 rest))
      else if (x = 'b' ∨ x = 'B') ∧ ¬rest.isEmpty ∧ rest.all (fun c => c = '0' ∨ c = '1') then
        some (.fin (radixVal 2 rest))
      else decimalFull
    | _ => decimalFull

/-- JavaScript `isNaN(s)` for a string argument. -/
def jsIsNaN (s : String) : Bool := (jsNumber s).isNone

/-! ### Tabular Cell Parser (src/index.js lines 1762-1777) -/

/-- A parsed cell: a double (kept exact as a rational), an infinity, the
`NaN` value, or the retained trimmed string. -/
inductive Cell where
  | num (q : ℚ)
  | inf (pos : Bool)
  | nan
  | str (s : String)
deriving DecidableEq, Repr

/-- Lift a `parseFloat` result into a cell (`NaN` when the parse failed). -/
def jsNumToCell : Option JsNum → Cell
  | some (.fin q) => .num q
  | some (.inf p) => .inf p
  | none => .nan

/-- The cell coercion `isNaN(v) ? v : parseFloat(v)` (line 1772): a
string that `Number` accepts is replaced by its `parseFloat` value. -/
def cellValue (v : String) : Cell :=
  if jsIsNaN v then .str v else jsNumToCell (parseFloatJs v)

/-- A row object: field insertion order with assignment overwrite, as in
a JavaScript object literal. -/
abbrev Row := List (String × Cell)

/-- `row[k] = v` on a JavaScript object. -/
def objSet (row : Row) (k : String) (v : Cell) : Row :=
  if (List.lookup k row).isSome then
    row.map (fun p => if p.1 = k then (k, v) else p)
  else row ++ [(k, v)]

/-- Build one row (lines 1769-1773): for each header/value pair, assign
`row[h === "Year" ? "year" : h] = isNaN(v) ? v : parseFloat(v)`. -/
def buildRow (headNames vals : List String) : Row :=
  (List.zip headNames vals).foldl
    (fun row hv => objSet row (if hv.1 = "Year" then "year" else hv.1) (cellValue hv.2)) []

/-- Split on a separator character and trim each piece
(`s.split(sep).map(x => x.trim())`). -/
def splitTrim (sep : Char) (s : String) : List String :=
  (jsSplit sep s).map trimJs

/-- The Tabular Cell Parser (lines 1764-1777): semicolon-separated
headers, newline-separated body lines of semicolon-separated values; a
line yields a row only when its value count equals the header count. -/
def parseTable (headerLine bodyText : String) : List Row :=
  let headNames := splitTrim ';' headerLine
  (jsSplit '\n' bodyText).filterMap (fun line =>
    let vals := splitTrim ';' line
    if vals.length = headNames.length then some (buildRow headNames vals) else none)

/-- From the `GET /data/:numericId` handler (line 1763): the header
string is `f[dataKey] || f.DataEN` with `dataKey = "Data" + lang`. -/
def detailHeadersVal (f : Fields) (lang : String) : Option JsVal :=
  jsOr (f.get ("Data" ++ lang)) (f.get "DataEN")

/-- From the same handler (line 1764): the body string of the tabular
parse is always the bare `Data` field. -/
def detailBodyVal (f : Fields) : Option JsVal := f.get "Data"

/-- The `data` array of `GET /data/:numericId` (lines 1762-1777):
`if (f.Data && headers)` parse, else stay empty.  `Data` fields are
strings in this schema; only string values reach the `split` calls. -/
def detailData (f : Fields) (lang : String) : List Row :=
  match detailBodyVal f, detailHeadersVal f lang with
  | some (.str body), some (.str hdr) =>
      if !body.isEmpty && !hdr.isEmpty then parseTable hdr body else []
  | _, _ => []

/-! ### Lookup Cache (src/index.js lines 25-203 and 732-739)

The four module-level cache variables and the shared timestamp become an
explicit state record.  Each loader's paginated Airtable fetch-and-index
loop is abstracted as its aggregated outcome: either the fully built
`id → fields` map (for content hubs, the `Title → fields` map) or the
transport error it would throw. -/

abbrev CacheMap := List (String × Fields)

/-- The module-level mutable cache state: `categoryMapCache`,
`contentHubsCache`, `commentMapCache`, `divisionsCache` (each `null` or
a built map) and the shared `cacheLastLoaded` timestamp. -/
structure CacheState where
  categoryMapCache : Option CacheMap
  contentHubsCache : Option CacheMap
  commentMapCache : Option CacheMap
  divisionsCache : Option CacheMap
  cacheLastLoaded : Nat
deriving DecidableEq, Repr

/-- `CACHE_TTL_MS = 60 * 60 * 1000` (one hour). -/
def CACHE_TTL_MS : Nat := 60 * 60 * 1000

/-- `isCacheFresh()` (lines 36-38): `Date.now() - cacheLastLoaded <
CACHE_TTL_MS`. -/
def isCacheFresh (now : Nat) (st : CacheState) : Bool :=
  now - st.cacheLastLoaded < CACHE_TTL_MS

/-- The fetch branch of `loadAllCategories` (lines 49-78): on success
store the map and advance the shared timestamp, on failure rethrow. -/
def fetchCategories (fetch : Except String CacheMap) (now : Nat) (st : CacheState) :
    Except String (CacheMap × CacheState) :=
  match fetch with
  | .error e => .error e
  | .ok m => .ok (m, { st with categoryMapCache := some m, cacheLastLoaded := now })

/-- `loadAllCategories` (lines 44-79): serve the cached map while
`categoryMapCache && isCacheFresh()`, else refetch. -/
def loadAllCategories (fetch : Except String CacheMap) (now : Nat) (st : CacheState) :
    Except String (CacheMap × CacheState) :=
  match st.categoryMapCache with
  | some m => if isCacheFresh now st then .ok (m, st) else fetchCategories fetch now st
  | none => fetchCategories fetch now st

/-- The fetch branch of `loadAllContentHubs` (lines 91-118). -/
def fetchContentHubs (fetch : Except String CacheMap) (now : Nat) (st : CacheState) :
    Except String (CacheMap × CacheState) :=
  match fetch with
  | .error e => .error e
  | .ok m => .ok (m, { st with contentHubsCache := some m, cacheLastLoaded := now })

/-- `loadAllContentHubs` (lines 86-119). -/
def loadAllContentHubs (fetch : Except String CacheMap) (now : Nat) (st : CacheState) :
    Except String (CacheMap × CacheState) :=
  match st.contentHubsCache with
  | some m => if isCacheFresh now st then .ok (m, st) else fetchContentHubs fetch now st
  | none => fetchContentHubs fetch now st

/-- The fetch branch of `loadAllComments` (lines 130-155). -/
def fetchComments (fetch : Except String CacheMap) (now : Nat) (st : CacheState) :
    Except String (CacheMap × CacheState) :=
  match fetch with
  | .error e => .error e
  | .ok m => .ok (m, { st with commentMapCache := some m, cacheLastLoaded := now })

/-- `loadAllComments` (lines 125-156). -/
def loadAllComments (fetch : Except String CacheMap) (now : Nat) (st : CacheState) :
    Except String (CacheMap × CacheState) :=
  match st.commentMapCache with
  | some m => if isCacheFresh now st then .ok (m, st) else fetchComments fetch now st
  | none => fetchComments fetch now st

/-- The fetch branch of `loadAllDivisions` (lines 171-202): on success
store the map; on failure store the empty map instead of rethrowing; in
both cases advance the shared timestamp. -/
def fetchDivisions (fetch : Except String CacheMap) (now : Nat) (st : CacheState) :
    CacheMap × CacheState :=
  match fetch with
  | .ok m => (m, { st with divisionsCache := some m, cacheLastLoaded := now })
  | .error _ => ([], { st with divisionsCache := some [], cacheLastLoaded := now })

/-- `loadAllDivisions` (lines 162-203): never fails. -/
def loadAllDivisions (fetch : Except String CacheMap) (now : Nat) (st : CacheState) :
    CacheMap × CacheState :=
  match st.divisionsCache with
  | some m => if isCacheFresh now st then (m, st) else fetchDivisions fetch now st
  | none => fetchDivisions fetch now st

/-- The `POST /cache/refresh` handler body (lines 732-739): null out all
four sub-caches and reset the shared timestamp to 0. -/
def cacheRefresh (_st : CacheState) : CacheState :=
  { categoryMapCache := none, contentHubsCache := none,
    commentMapCache := none, divisionsCache := none, cacheLastLoaded := 0 }

/-- Names for the four sub-caches, to quantify over them. -/
inductive Sub where
  | cats | hubs | comments | divs
deriving DecidableEq, Repr

/-- The stored map of one sub-cache. -/
def subCache : Sub → CacheState → Option CacheMap
  | .cats, st => st.categoryMapCache
  | .hubs, st => st.contentHubsCache
  | .comments, st => st.commentMapCache
  | .divs, st => st.divisionsCache

/-- Dispatch to the four loaders (the divisions loader never errors). -/
def loadSub : Sub → Except String CacheMap → Nat → CacheState →
    Except String (CacheMap × CacheState)
  | .cats, fetch, now, st => loadAllCategories fetch now st
  | .hubs, fetch, now, st => loadAllContentHubs fetch now st
  | .comments, fetch, now, st => loadAllComments fetch now st
  | .divs, fetch, now, st => .ok (loadAllDivisions fetch now st)

/-! ### Language normalization and endpoint models -/

/-- The supported language-code list `LANGUAGES` (lines 19-23). -/
def LANGUAGES : List String :=
  ["FR", "CZ", "SK", "IT", "CN", "JP", "SI", "LT", "LV", "FI",
   "UA", "PT", "VN", "DE", "NL", "TR", "EE", "RS", "HR", "ES",
   "PL", "HU", "GR", "RO", "BG", "EN"]

/-- `(req.query.lang || "EN").toUpperCase()` — the `lang` handling every
endpoint opens with (e.g. lines 436, 1536); `none` is an absent query
parameter. -/
def normLang (q : Option String) : String :=
  toUpperJs (match q with
   | none => "EN"
   | some s => if s.data.isEmpty then "EN" else s)

/-- First truthy value of a chain `v1 || v2 || ... || null`, else
JavaScript `null`/`undefined` (here `none`). -/
def orNull (vs : List (Option JsVal)) : Option JsVal :=
  match vs with
  | [] => none
  | v :: rest => if truthyO v then v else orNull rest

/-- JavaScript string coercion `String(v)` as used in template literals. -/
def jsToString : Option JsVal → String
  | none => "undefined"
  | some (.str s) => s
  | some (.num n) => toString n
  | some (.arr xs) => String.intercalate "," xs

/-- `items.sort((a, b) => new Date(b.meta.lastUpdate) - new Date(a.meta.lastUpdate))`
(lines 531, 1441): descending by date; the external `Date` parser is the
oracle `key`. -/
def sortByDateDesc {α : Type} (key : α → Int) (xs : List α) : List α :=
  sortByLe (fun a b => key b ≤ key a) xs

/-- Item metadata of the `GET /datasets` response (lines 518-527). -/
structure ItemMeta where
  title : Option JsVal
  description : JsVal
  category : Option JsVal
  country : Option JsVal
  lastUpdate : JsVal
  nextUpdateTime : JsVal
deriving DecidableEq, Repr

/-- One `GET /datasets` item. -/
structure Item where
  id : JsVal
  meta : ItemMeta
deriving DecidableEq, Repr

/-- The listability filter of `GET /datasets` (lines 497-499):
`r.fields.Title && r.fields.Title.trim()`; `Title` on the main table is
a string field. -/
def isValidTitle (f : Fields) : Bool :=
  match f.get "Title" with
  | some (.str s) => !s.data.isEmpty && !(trimJs s).data.isEmpty
  | _ => false

/-- Category/country resolution of a `GET /datasets` item (lines
505-516): via `CategorySelect[0]` in the category cache,
`cf[lang === "EN" ? "Secondary" : "Secondary" + lang] || cf["Secondary"] || null`
and `cf.TitleEN || null`. -/
def datasetsCatInfo (catMap : CacheMap) (f : Fields) (lang : String) :
    Option JsVal × Option JsVal :=
  match f.get "CategorySelect" with
  | some (.arr (cid :: _)) =>
    match List.lookup cid catMap with
    | some cf =>
      let key := if lang = "EN" then "Secondary" else "Secondary" ++ lang
      (orNull [cf.get key, cf.get "Secondary"], orNull [cf.get "TitleEN"])
    | none => (none, none)
  | _ => (none, none)

/-- One `GET /datasets` item (lines 501-529). -/
def datasetsItem (catMap : CacheMap) (lang : String) (rid : String) (f : Fields) : Item :=
  let info := datasetsCatInfo catMap f lang
  { id := orChain [f.get "DataID"] (.str rid)
    meta :=
      { title := jsOr (f.get ("Title" ++ lang)) (f.get "Title")
        description := orChain [f.get ("Description" ++ lang), f.get "DescriptionEN"] (.str "")
        category := info.1
        country := info.2
        lastUpdate := orChain [f.get "UpdatedThere"] (.str "")
        nextUpdateTime := orChain [f.get "NextUpdateTime"] (.str "") } }

/-- The `items` of the `GET /datasets` response (lines 496-531): drop
records whose `Title` is empty or all-whitespace, build the item of each
survivor, sort descending by `lastUpdate`. -/
def datasetsItems (catMap : CacheMap) (lang : String)
    (records : List (String × Fields)) (dateVal : JsVal → Int) : List Item :=
  sortByDateDesc (fun it => dateVal it.meta.lastUpdate)
    ((records.filter (fun r => isValidTitle r.2)).map
      (fun r => datasetsItem catMap lang r.1 r.2))

/-- `s.charAt(0).toUpperCase() + s.slice(1)`. -/
def capFirst (s : String) : String :=
  match s.data with
  | [] => ""
  | c :: rest => String.mk (c.toUpper :: rest)

/-- `getCountryNameForFiltering` (lines 359-368). -/
def getCountryNameForFiltering (countryParam : String) : String :=
  let lower := toLowerJs countryParam
  if lower = "eu" then "European Union"
  else if lower = "poland" then "Poland"
  else capFirst countryParam

/-- The canonical country title of a Category record:
`Array.isArray(fields.TitleEN) ? fields.TitleEN[0] : fields.TitleEN`
(`TitleEN` is a string or a string lookup in this schema). -/
def catTitleEN (fields : Fields) : Option String :=
  match fields.get "TitleEN" with
  | some (.arr xs) => xs.head?
  | some (.str s) => some s
  | _ => none

/-- Country match of a Category record (lines 1361-1364):
`titleEN && titleEN.toLowerCase().trim() === countryName.toLowerCase().trim()`. -/
def matchesCountry (countryName : String) (fields : Fields) : Bool :=
  match catTitleEN fields with
  | some s => !s.data.isEmpty && trimJs (toLowerJs s) = trimJs (toLowerJs countryName)
  | none => false

/-- Concatenate the linked-id arrays of field `key` across the matching
Category records (lines 1371-1376). -/
def collectIds (key : String) (cats : List (String × Fields)) : List String :=
  cats.foldl (fun acc c =>
    match c.2.get key with
    | some (.arr xs) => acc ++ xs
    | _ => acc) []

/-- Item metadata of the `GET /dataset/:country` response (no category
or country keys). -/
structure CItemMeta where
  title : Option JsVal
  description : JsVal
  lastUpdate : JsVal
  nextUpdateTime : JsVal
deriving DecidableEq, Repr

/-- One `GET /dataset/:country` item. -/
structure CItem where
  id : JsVal
  meta : CItemMeta
deriving DecidableEq, Repr

/-- Division item of `GET /dataset/:country` (lines 1398-1426),
including the `Main_Data` enrichment from the linked main record. -/
def countryDivisionItem (allPoland : List (String × Fields)) (lang : String)
    (f : Fields) : CItem :=
  let descKey := "Description" ++ lang
  let description0 := orChain [f.get descKey, f.get "DescriptionEN"] (.str "")
  let lastUpdate0 := orChain [f.get "UpdatedThere"] (.str "")
  let nextUpdateTime0 := orChain [f.get "NextUpdateTime"] (.str "")
  let enriched : JsVal × JsVal × JsVal :=
    match f.get "Main_Data" with
    | some (.arr (mid :: _)) =>
      match List.lookup mid allPoland with
      | some pf =>
        (orChain [pf.get descKey, pf.get "DescriptionEN"] description0,
         orChain [pf.get "UpdatedThere"] lastUpdate0,
         orChain [pf.get "NextUpdateTime"] nextUpdateTime0)
      | none => (description0, lastUpdate0, nextUpdateTime0)
    | _ => (description0, lastUpdate0, nextUpdateTime0)
  let titleKeyVal := f.get ("Title" ++ lang)
  let title : Option JsVal :=
    match titleKeyVal with
    | some (.arr xs) => jsHead xs
    | tLang =>
      let bare : Option JsVal :=
        match f.get "Title" with
        | some (.arr xs) => jsHead xs
        | v => v
      jsOr tLang bare
  { id := .str ("d" ++ jsToString (jsOr (f.get "DataID") (f.get "id")))
    meta :=
      { title := title
        description := enriched.1
        lastUpdate := enriched.2.1
        nextUpdateTime := enriched.2.2 } }

/-- Main-table item of `GET /dataset/:country` (lines 1427-1438). -/
def countryPolandItem (lang : String) (rid : String) (f : Fields) : CItem :=
  { id := orChain [f.get "DataID"] (.str rid)
    meta :=
      { title := jsOr (f.get ("Title" ++ lang)) (f.get "Title")
        description := orChain [f.get ("Description" ++ lang), f.get "DescriptionEN"] (.str "")
        lastUpdate := orChain [f.get "UpdatedThere"] (.str "")
        nextUpdateTime := orChain [f.get "NextUpdateTime"] (.str "") } }

/-- The `GET /dataset/:country` handler (lines 1349-1447) after the
fetches: find the Category records of the country, collect their linked
`Divisions`/`Poland` ids, emit one item per linked record — with no
title filter — and sort descending by `lastUpdate`.  `error` carries the
404 message. -/
def datasetCountryEndpoint (allCategories allDivisions : CacheMap)
    (allPoland : List (String × Fields)) (countryRaw lang : String)
    (dateVal : JsVal → Int) : Except String (List CItem) :=
  let countryParam := toLowerJs countryRaw
  let countryName := getCountryNameForFiltering countryParam
  let matching := allCategories.filter (fun c => matchesCountry countryName c.2)
  if matching.isEmpty then
    .error ("No category found for country \"" ++ countryName ++ "\"")
  else
    let divisionIds := collectIds "Divisions" matching
    let polandIds := collectIds "Poland" matching
    let divisionRecords := divisionIds.filterMap (fun i => List.lookup i allDivisions)
    let polandRecords := allPoland.filter (fun r => polandIds.contains r.1)
    let items := divisionRecords.map (countryDivisionItem allPoland lang) ++
      polandRecords.map (fun r => countryPolandItem lang r.1 r.2)
    .ok (sortByDateDesc (fun it => dateVal it.meta.lastUpdate) items)

/-! ### `GET /data/:numericId` identifier handling (lines 1525-1656) -/

/-- JavaScript `parseInt(s)` with no radix argument: trim, optional
sign, auto-detected hex prefix, else longest decimal-digit prefix;
`none` is `NaN`. -/
def parseIntJs (s : String) : Option Int :=
  let cs := (trimJs s).data
  let signed : Bool × List Char :=
    match cs with
    | '+' :: r => (false, r)
    | '-' :: r => (true, r)
    | _ => (false, cs)
  let neg := signed.1
  let body := signed.2
  match body with
  | '0' :: x :: rest =>
    if x = 'x' ∨ x = 'X' then
      let ds := (rest.span (fun c => isHexDigit c)).1
      if ds.isEmpty then none
      else some (if neg then -(radixVal 16 ds : Int) else (radixVal 16 ds : Int))
    else
      let ds := (body.span (·.isDigit)).1
      if ds.isEmpty then none
      else some (if neg then -(digitsVal ds : Int) else (digitsVal ds : Int))
  | _ =>
    let ds := (body.span (·.isDigit)).1
    if ds.isEmpty then none
    else some (if neg then -(digitsVal ds : Int) else (digitsVal ds : Int))

/-- Outcome of resolving the `GET /data/:numericId` record: the 400
response, the 404 response, or the resolved record. -/
inductive DataResp where
  | badRequest (error : String)
  | notFound (error : String)
  | found (recId : String) (f : Fields)
deriving DecidableEq, Repr

/-- The main-table lookup `filterByFormula {DataID} = n`, taking
`records[0]` (lines 1642-1651). -/
def findMainByDataID (allPoland : List (String × Fields)) (n : Int) :
    Option (String × Fields) :=
  allPoland.find? (fun r => r.2.get "DataID" = some (.num n))

/-- The divisions scan `divisionFields.DataID === numericId` taking the
first hit (lines 1553-1560). -/
def findDivisionByDataID (divisions : CacheMap) (n : Int) :
    Option (String × Fields) :=
  divisions.find? (fun d => d.2.get "DataID" = some (.num n))

/-- Identifier validation and record resolution of `GET /data/:numericId`
(lines 1525-1656): strip an optional leading `d` (routing to the
Divisions table), `parseInt`, 400 on `NaN`, 404 naming the parsed id
when no record matches. -/
def dataEndpointResolve (allPoland : List (String × Fields))
    (allDivisions : CacheMap) (idParam : String) : DataResp :=
  let isDivision := startsWithD idParam
  let idStr := if isDivision then substringFrom1 idParam else idParam
  match parseIntJs idStr with
  | none => .badRequest
      "Invalid ID. Please provide a valid numeric ID or 'd' + numeric ID for division records."
  | some numericId =>
    if isDivision then
      match findDivisionByDataID allDivisions numericId with
      | some r => .found r.1 r.2
      | none => .notFound ("No division data for ID \"d" ++ toString numericId ++ "\"")
    else
      match findMainByDataID allPoland numericId with
      | some r => .found r.1 r.2
      | none => .notFound ("No data for ID \"" ++ toString numericId ++ "\"")

/-! ### Concrete records used to settle the claims -/

/-- A record carrying a bare `Title` and a different `TitleEN`, with no
`TitleFR`. -/
def cexTitles : Fields := [("Title", .str "bare"), ("TitleEN", .str "english")]

/-- A record whose three `Data` fields all differ. -/
def cexDataSuffix : Fields :=
  [("DataFR", .str "A;B"), ("DataEN", .str "C;D"), ("Data", .str "1;2")]

/-- "The header field and the body field of the tabular parse come from
`Data` fields sharing one language suffix" — the claim's wording, over
the bare suffix and every supported code. -/
def sharesOneSuffix (f : Fields) (lang : String) : Prop :=
  ∃ σ ∈ ("" :: LANGUAGES),
    detailHeadersVal f lang = f.get ("Data" ++ σ) ∧
    detailBodyVal f = f.get ("Data" ++ σ)

instance (f : Fields) (lang : String) : Decidable (sharesOneSuffix f lang) := by
  unfold sharesOneSuffix; infer_instance

/-! ### Helper lemmas -/

theorem filterMap_guard_eq {α β : Type} (p : α → Prop) [DecidablePred p]
    (g : α → β) :
    ∀ l : List α,
      l.filterMap (fun a => if p a then some (g a) else none) =
        (l.filter (fun a => decide (p a))).map g := by
  intro l
  induction l with
  | nil => rfl
  | cons a t ih =>
    by_cases h : p a <;>
      simp [List.filterMap_cons, List.filter_cons, h, ih]

/-! ### C2 — arity filtering in the Tabular Cell Parser -/

/-- C2: the parser accepts a body line exactly when its
semicolon-separated value count equals the header count — the emitted
rows are precisely the arity-matching lines, in input order, with the
mismatched lines silently dropped — and in particular headers `"A;B"`
with body `"1;2;3"` yield no rows. -/
theorem parseTable_arity_filter :
    (∀ header body : String,
      parseTable header body =
        ((jsSplit '\n' body).filter
          (fun line =>
            decide ((splitTrim ';' line).length = (splitTrim ';' header).length))).map
          (fun line => buildRow (splitTrim ';' header) (splitTrim ';' line))) ∧
    parseTable "A;B" "1;2;3" = [] := by
  constructor
  · intro header body
    unfold parseTable
    exact filterMap_guard_eq
      (fun line => (splitTrim ';' line).length = (splitTrim ';' header).length)
      (fun line => buildRow (splitTrim ';' header) (splitTrim ';' line))
      (jsSplit '\n' body)
  · rfl

/-! ### C3 — numeric coercion of cells -/

/-- C3 (counterexample): an empty-string cell does not remain the empty
string.  `isNaN("")` is false (`Number("")` is `0`), so the code stores
`parseFloat("")`, which is `NaN`: parsing headers `"A;B"` against the
body line `";2"` puts the `NaN` value in column `A`, not `""`. -/
theorem empty_cell_not_kept_as_string :
    parseTable "A;B" ";2" ≠ [[("A", Cell.str ""), ("B", Cell.num 2)]] ∧
    parseTable "A;B" ";2" = [[("A", Cell.nan), ("B", Cell.num 2)]] ∧
    cellValue "" ≠ Cell.str "" :=
  ⟨by decide, by decide, by decide⟩

/-- C3 (amended): a string rejected by `isNaN` is retained as the
trimmed string, a string accepted by it is replaced by its `parseFloat`
value — `"13.9"` becomes the number `139/10` and `"N/A"` stays the
string `"N/A"` — but the empty-string cell is coerced to the `NaN`
value rather than kept as the empty string. -/
theorem cell_coercion_amended :
    (∀ v : String, jsIsNaN v = true → cellValue v = Cell.str v) ∧
    (∀ v : String, jsIsNaN v = false → cellValue v = jsNumToCell (parseFloatJs v)) ∧
    cellValue "13.9" = Cell.num (139 / 10) ∧
    cellValue "N/A" = Cell.str "N/A" ∧
    cellValue "" = Cell.nan := by
  refine ⟨?_, ?_, ?_, by decide, by decide⟩
  · intro v h
    simp [cellValue, h]
  · intro v h
    simp [cellValue, h]
  · have h : cellValue "13.9" = Cell.num (mkRat 139 10) := by decide
    rw [h, Rat.mkRat_eq_div]
    norm_num

/-- Witness for `cell_coercion_amended` at the concrete cells of the
claim. -/
theorem cell_coercion_amended_witness :
    cellValue "N/A" = Cell.str "N/A" ∧ cellValue "" = jsNumToCell (parseFloatJs "") :=
  ⟨cell_coercion_amended.1 "N/A" (by decide),
   cell_coercion_amended.2.1 "" (by decide)⟩

/-! ### C4 — header/body field pairing of the tabular parse -/

/-- C4 (counterexample): for the record with `DataFR = "A;B"`,
`DataEN = "C;D"` and `Data = "1;2"` under language `FR`, the header
string is taken from `DataFR` while the body string is the bare `Data`
field — no single language suffix supplies both strings. -/
theorem header_body_suffixes_differ :
    detailHeadersVal cexDataSuffix "FR" = some (.str "A;B") ∧
    detailBodyVal cexDataSuffix = some (.str "1;2") ∧
    ¬ sharesOneSuffix cexDataSuffix "FR" :=
  ⟨by decide, by decide, by decide⟩

/-- C4 (amended): the tabular parse of `GET /data/:numericId` takes its
header string from the language-resolved field (`Data{L}`, falling back
to `DataEN`) and its body string always from the bare `Data` field —
the two need not share a language suffix; whenever both resolve to
nonempty strings, the parser runs on exactly that pair. -/
theorem data_parse_sources_amended (f : Fields) (lang hdr body : String)
    (hb : detailBodyVal f = some (.str body))
    (hh : detailHeadersVal f lang = some (.str hdr))
    (hbne : body ≠ "") (hhne : hdr ≠ "") :
    detailData f lang = parseTable hdr body := by
  unfold detailData
  rw [hb, hh]
  have h1 : body.isEmpty = false := by
    cases he : body.isEmpty
    · rfl
    · exact absurd ((String.isEmpty_iff body).mp he) hbne
  have h2 : hdr.isEmpty = false := by
    cases he : hdr.isEmpty
    · rfl
    · exact absurd ((String.isEmpty_iff hdr).mp he) hhne
  simp [h1, h2]

/-- Witness for `data_parse_sources_amended` on the mixed-suffix
record. -/
theorem data_parse_sources_amended_witness :
    detailData cexDataSuffix "FR" = parseTable "A;B" "1;2" :=
  data_parse_sources_amended cexDataSuffix "FR" "A;B" "1;2"
    (by decide) (by decide) (by decide) (by decide)

/-! ### C1 — localization fallback order -/

/-- C1 (counterexample): on a record with `Title = "bare"`,
`TitleEN = "english"` and no `TitleFR`, both cited resolutions return
the bare `Title` value `"bare"`, not the `EN` variant `"english"` that
the claimed priority (language field, then `EN` variant, then bare base
name) requires. -/
theorem title_en_before_bare_refuted :
    unifiedTitle cexTitles "FR" = .str "bare" ∧
    detailTitle cexTitles "FR" = some (.str "bare") ∧
    specResolveField cexTitles "Title" "FR" = .str "english" ∧
    unifiedTitle cexTitles "FR" ≠ specResolveField cexTitles "Title" "FR" :=
  ⟨by decide, by decide, by decide, by decide⟩

/-- C1 (amended): for every language code and record, the localized
title resolves as `Title{L}`, then the **bare** `Title`, then
`TitleEN`, then the empty string — the bare base name is tried before
the `EN` variant — and the result is always defined; the detail-title
variant is likewise defined whenever `Title{L}` is not an empty
array. -/
theorem title_fallback_resolution_amended (f : Fields) (lang : String)
    (h : f.get ("Title" ++ lang) ≠ some (.arr [])) :
    unifiedTitle f lang =
      (if truthyO (f.get ("Title" ++ lang)) then (f.get ("Title" ++ lang)).getD (.str "")
       else if truthyO (f.get "Title") then (f.get "Title").getD (.str "")
       else if truthyO (f.get "TitleEN") then (f.get "TitleEN").getD (.str "")
       else .str "") ∧
    (detailTitle f lang).isSome = true := by
  constructor
  · simp only [unifiedTitle, orChain]
  · unfold detailTitle
    cases hv : f.get ("Title" ++ lang) with
    | none => simp
    | some v =>
      cases v with
      | str s => simp
      | num n => simp
      | arr xs =>
        cases xs with
        | nil => exact absurd hv h
        | cons a t => simp [jsHead]

/-- Witness for `title_fallback_resolution_amended` on the
`bare`/`english` record. -/
theorem title_fallback_resolution_amended_witness :
    (detailTitle cexTitles "FR").isSome = true :=
  (title_fallback_resolution_amended cexTitles "FR" (by decide)).2

/-! ### C5 — `lang` parameter handling -/

/-- A one-record main table whose record titles distinguish `EN` from an
unrecognized code. -/
def cexLangRecords : List (String × Fields) := [("r1", cexTitles)]

/-- C5 (counterexample): the unrecognized code `xx` is uppercased to
`XX`, which is outside the supported set, yet `GET /datasets` renders a
different response than for `lang=EN`: the `XX` request falls back to
the bare title `"bare"` while `EN` yields `"english"`. -/
theorem unrecognized_lang_not_en_refuted :
    normLang (some "xx") = "XX" ∧ "XX" ∉ LANGUAGES ∧
    datasetsItems [] (normLang (some "xx")) cexLangRecords (fun _ => 0) ≠
      datasetsItems [] (normLang (some "EN")) cexLangRecords (fun _ => 0) :=
  ⟨by decide, by decide, by decide⟩

/-- C5 (amended): the `lang` parameter is uppercased, and an absent or
empty parameter behaves as `EN`; a code outside the supported set is
*not* replaced by `EN` — the uppercased code is used verbatim to build
field keys, so its response coincides with `lang=EN` only through the
per-field fallback when the code-specific field is absent. -/
theorem lang_normalization_amended :
    normLang none = "EN" ∧ normLang (some "") = "EN" ∧
    (∀ s : String, s ≠ "" → normLang (some s) = toUpperJs s) ∧
    (∀ (catMap : CacheMap) (rid : String) (f : Fields) (lang : String),
      f.get ("Title" ++ lang) = none →
      (datasetsItem catMap lang rid f).meta.title = f.get "Title") := by
  refine ⟨by decide, by decide, ?_, ?_⟩
  · intro s h
    have hd : s.data.isEmpty = false := by
      cases s with
      | mk ds =>
        cases ds with
        | nil => exact absurd rfl h
        | cons a t => rfl
    simp [normLang, hd]
  · intro catMap rid f lang h
    simp [datasetsItem, jsOr, h, truthyO]

/-- Witness for `lang_normalization_amended`: uppercasing of `fr` and
the verbatim-key fallback at code `XX`. -/
theorem lang_normalization_amended_witness :
    normLang (some "fr") = toUpperJs "fr" ∧
    (datasetsItem [] "XX" "r1" cexTitles).meta.title = cexTitles.get "Title" :=
  ⟨lang_normalization_amended.2.2.1 "fr" (by decide),
   lang_normalization_amended.2.2.2 [] "r1" cexTitles "XX" (by decide)⟩

/-! ### Cache lemmas and claims C6, C7, C10 -/

/-- The process start state: four null sub-caches, timestamp 0. -/
def initState : CacheState := ⟨none, none, none, none, 0⟩

/-- Store a freshly fetched map into one sub-cache and advance the
shared timestamp — the common effect of the four fetch branches. -/
def setSub : Sub → CacheMap → Nat → CacheState → CacheState
  | .cats, m, now, st => { st with categoryMapCache := some m, cacheLastLoaded := now }
  | .hubs, m, now, st => { st with contentHubsCache := some m, cacheLastLoaded := now }
  | .comments, m, now, st => { st with commentMapCache := some m, cacheLastLoaded := now }
  | .divs, m, now, st => { st with divisionsCache := some m, cacheLastLoaded := now }

theorem fetchCategories_ok (fetch : Except String CacheMap) (now : Nat)
    (st : CacheState) (m : CacheMap) (st2 : CacheState)
    (h : fetchCategories fetch now st = .ok (m, st2)) :
    fetch = .ok m ∧ st2 = setSub .cats m now st := by
  unfold fetchCategories at h
  cases fetch with
  | error e => simp at h
  | ok mf =>
    simp only [Except.ok.injEq, Prod.mk.injEq] at h
    obtain ⟨h1, h2⟩ := h
    subst h1
    exact ⟨rfl, h2.symm⟩

theorem fetchContentHubs_ok (fetch : Except String CacheMap) (now : Nat)
    (st : CacheState) (m : CacheMap) (st2 : CacheState)
    (h : fetchContentHubs fetch now st = .ok (m, st2)) :
    fetch = .ok m ∧ st2 = setSub .hubs m now st := by
  unfold fetchContentHubs at h
  cases fetch with
  | error e => simp at h
  | ok mf =>
    simp only [Except.ok.injEq, Prod.mk.injEq] at h
    obtain ⟨h1, h2⟩ := h
    subst h1
    exact ⟨rfl, h2.symm⟩

theorem fetchComments_ok (fetch : Except String CacheMap) (now : Nat)
    (st : CacheState) (m : CacheMap) (st2 : CacheState)
    (h : fetchComments fetch now st = .ok (m, st2)) :
    fetch = .ok m ∧ st2 = setSub .comments m now st := by
  unfold fetchComments at h
  cases fetch with
  | error e => simp at h
  | ok mf =>
    simp only [Except.ok.injEq, Prod.mk.injEq] at h
    obtain ⟨h1, h2⟩ := h
    subst h1
    exact ⟨rfl, h2.symm⟩

theorem fetchDivisions_eq (fetch : Except String CacheMap) (now : Nat)
    (st : CacheState) (m : CacheMap) (st2 : CacheState)
    (h : fetchDivisions fetch now st = (m, st2)) :
    st2 = setSub .divs m now st := by
  unfold fetchDivisions at h
  cases fetch with
  | error e =>
    simp only [Prod.mk.injEq] at h
    obtain ⟨h1, h2⟩ := h
    subst h1
    exact h2.symm
  | ok mf =>
    simp only [Prod.mk.injEq] at h
    obtain ⟨h1, h2⟩ := h
    subst h1
    exact h2.symm

/-- A stale or cold access ends in the fetch branch: the resulting state
stores the returned map in the accessed sub-cache at time `now`. -/
theorem loadSub_stale_eq (s : Sub) (fetch : Except String CacheMap) (now : Nat)
    (st : CacheState) (m : CacheMap) (st2 : CacheState)
    (hstale : subCache s st = none ∨ isCacheFresh now st = false)
    (hload : loadSub s fetch now st = .ok (m, st2)) :
    st2 = setSub s m now st := by
  cases s with
  | cats =>
    simp only [loadSub] at hload
    unfold loadAllCategories at hload
    rcases hmc : st.categoryMapCache with _ | m0 <;> rw [hmc] at hload
    · exact (fetchCategories_ok fetch now st m st2 hload).2
    · rcases hstale with h1 | h2
      · rw [show subCache Sub.cats st = st.categoryMapCache from rfl, hmc] at h1
        simp at h1
      · rw [h2] at hload
        simp only [Bool.false_eq_true, if_false] at hload
        exact (fetchCategories_ok fetch now st m st2 hload).2
  | hubs =>
    simp only [loadSub] at hload
    unfold loadAllContentHubs at hload
    rcases hmc : st.contentHubsCache with _ | m0 <;> rw [hmc] at hload
    · exact (fetchContentHubs_ok fetch now st m st2 hload).2
    · rcases hstale with h1 | h2
      · rw [show subCache Sub.hubs st = st.contentHubsCache from rfl, hmc] at h1
        simp at h1
      · rw [h2] at hload
        simp only [Bool.false_eq_true, if_false] at hload
        exact (fetchContentHubs_ok fetch now st m st2 hload).2
  | comments =>
    simp only [loadSub] at hload
    unfold loadAllComments at hload
    rcases hmc : st.commentMapCache with _ | m0 <;> rw [hmc] at hload
    · exact (fetchComments_ok fetch now st m st2 hload).2
    · rcases hstale with h1 | h2
      · rw [show subCache Sub.comments st = st.commentMapCache from rfl, hmc] at h1
        simp at h1
      · rw [h2] at hload
        simp only [Bool.false_eq_true, if_false] at hload
        exact (fetchComments_ok fetch now st m st2 hload).2
  | divs =>
    simp only [loadSub, Except.ok.injEq] at hload
    unfold loadAllDivisions at hload
    rcases hmc : st.divisionsCache with _ | m0 <;> rw [hmc] at hload
    · exact fetchDivisions_eq fetch now st m st2 hload
    · rcases hstale with h1 | h2
      · rw [show subCache Sub.divs st = st.divisionsCache from rfl, hmc] at h1
        simp at h1
      · rw [h2] at hload
        simp only [Bool.false_eq_true, if_false] at hload
        exact fetchDivisions_eq fetch now st m st2 hload

/-- A fresh access to a loaded sub-cache is served from the cache
without state change. -/
theorem loadSub_fresh_hit (s : Sub) (fetch : Except String CacheMap) (now : Nat)
    (st : CacheState) (m : CacheMap)
    (hm : subCache s st = some m) (hf : isCacheFresh now st = true) :
    loadSub s fetch now st = .ok (m, st) := by
  cases s with
  | cats =>
    show loadAllCategories fetch now st = .ok (m, st)
    unfold loadAllCategories
    rw [show st.categoryMapCache = some m from hm]
    simp [hf]
  | hubs =>
    show loadAllContentHubs fetch now st = .ok (m, st)
    unfold loadAllContentHubs
    rw [show st.contentHubsCache = some m from hm]
    simp [hf]
  | comments =>
    show loadAllComments fetch now st = .ok (m, st)
    unfold loadAllComments
    rw [show st.commentMapCache = some m from hm]
    simp [hf]
  | divs =>
    show (Except.ok (loadAllDivisions fetch now st) :
      Except String (CacheMap × CacheState)) = Except.ok (m, st)
    unfold loadAllDivisions
    rw [show st.divisionsCache = some m from hm]
    simp [hf]

/-- C6: reloading any one sub-cache advances the single shared
timestamp to the load time and touches no other sub-cache, after which
`isCacheFresh` holds for the whole Lookup Cache for the next hour: any
access to any loaded sub-cache within that hour is served from the
cache without reloading or changing state. -/
theorem cache_shared_clock (s : Sub) (fetch : Except String CacheMap)
    (now : Nat) (st : CacheState) (m : CacheMap) (st2 : CacheState)
    (hstale : subCache s st = none ∨ isCacheFresh now st = false)
    (hload : loadSub s fetch now st = .ok (m, st2)) :
    st2.cacheLastLoaded = now ∧
    (∀ s2 : Sub, s2 ≠ s → subCache s2 st2 = subCache s2 st) ∧
    (∀ now2 : Nat, now2 - now < CACHE_TTL_MS →
      isCacheFresh now2 st2 = true ∧
      (∀ (s2 : Sub) (m2 : CacheMap) (fetch2 : Except String CacheMap),
        subCache s2 st2 = some m2 →
        loadSub s2 fetch2 now2 st2 = .ok (m2, st2))) := by
  have hst2 : st2 = setSub s m now st := loadSub_stale_eq s fetch now st m st2 hstale hload
  subst hst2
  have hts : (setSub s m now st).cacheLastLoaded = now := by
    cases s <;> rfl
  refine ⟨hts, ?_, ?_⟩
  · intro s2 hne
    cases s <;> cases s2 <;> first | rfl | exact absurd rfl hne
  · intro now2 hlt
    have hfresh : isCacheFresh now2 (setSub s m now st) = true := by
      unfold isCacheFresh
      rw [hts]
      exact decide_eq_true hlt
    exact ⟨hfresh, fun s2 m2 fetch2 hm2 =>
      loadSub_fresh_hit s2 fetch2 now2 (setSub s m now st) m2 hm2 hfresh⟩

/-- Witness for `cache_shared_clock`: a cold categories load at time 5
stamps the shared clock and leaves the cache fresh at time 10. -/
theorem cache_shared_clock_witness :
    (setSub .cats [] 5 initState).cacheLastLoaded = 5 ∧
    isCacheFresh 10 (setSub .cats [] 5 initState) = true := by
  have h := cache_shared_clock .cats (.ok []) 5 initState [] (setSub .cats [] 5 initState)
    (Or.inl rfl) rfl
  exact ⟨h.1, (h.2.2 10 (by decide)).1⟩

/-- C7: on a stale cache, a failing fetch makes `loadAllDivisions`
degrade to the empty mapping while the categories, content-hubs and
comments loaders propagate the error to the caller. -/
theorem divisions_failure_policy (e : String) (now : Nat) (st : CacheState)
    (hstale : isCacheFresh now st = false) :
    (loadAllDivisions (.error e) now st).1 = [] ∧
    loadAllCategories (.error e) now st = .error e ∧
    loadAllContentHubs (.error e) now st = .error e ∧
    loadAllComments (.error e) now st = .error e := by
  refine ⟨?_, ?_, ?_, ?_⟩
  · unfold loadAllDivisions
    rcases h : st.divisionsCache with _ | m0 <;> simp [h, hstale, fetchDivisions]
  · unfold loadAllCategories
    rcases h : st.categoryMapCache with _ | m0 <;> simp [h, hstale, fetchCategories]
  · unfold loadAllContentHubs
    rcases h : st.contentHubsCache with _ | m0 <;> simp [h, hstale, fetchContentHubs]
  · unfold loadAllComments
    rcases h : st.commentMapCache with _ | m0 <;> simp [h, hstale, fetchComments]

/-- Witness for `divisions_failure_policy` at an expired timestamp. -/
theorem divisions_failure_policy_witness :
    (loadAllDivisions (.error "boom") CACHE_TTL_MS initState).1 = [] ∧
    loadAllCategories (.error "boom") CACHE_TTL_MS initState = .error "boom" := by
  have h := divisions_failure_policy "boom" CACHE_TTL_MS initState (by decide)
  exact ⟨h.1, h.2.1⟩

/-- C10: after a failed divisions fetch the empty mapping itself is
cached and the shared timestamp advanced to the failure time, so for
the next hour the whole cache counts as fresh and every divisions
access returns the empty mapping without retrying the fetch; the fetch
is retried only once the TTL has expired or after a manual
invalidation. -/
theorem divisions_failure_cached (e : String) (now : Nat) (st : CacheState)
    (hstale : st.divisionsCache = none ∨ isCacheFresh now st = false) :
    ∃ st2 : CacheState,
      loadAllDivisions (.error e) now st = ([], st2) ∧
      st2.divisionsCache = some [] ∧
      st2.cacheLastLoaded = now ∧
      (∀ (fetch2 : Except String CacheMap) (now2 : Nat),
        now2 - now < CACHE_TTL_MS → loadAllDivisions fetch2 now2 st2 = ([], st2)) ∧
      (∀ now2 : Nat, now2 - now < CACHE_TTL_MS → isCacheFresh now2 st2 = true) ∧
      (∀ m2 : CacheMap,
        loadAllDivisions (.ok m2) (now + CACHE_TTL_MS) st2 =
          (m2, setSub .divs m2 (now + CACHE_TTL_MS) st2)) ∧
      (∀ (m2 : CacheMap) (now2 : Nat),
        loadAllDivisions (.ok m2) now2 (cacheRefresh st2) =
          (m2, setSub .divs m2 now2 (cacheRefresh st2))) := by
  refine ⟨setSub .divs [] now st, ?_, rfl, rfl, ?_, ?_, ?_, ?_⟩
  · unfold loadAllDivisions
    rcases h : st.divisionsCache with _ | m0
    · simp [h, fetchDivisions, setSub]
    · rcases hstale with h1 | h2
      · rw [h] at h1
        simp at h1
      · simp [h, h2, fetchDivisions, setSub]
  · intro fetch2 now2 hlt
    have hf : isCacheFresh now2 (setSub .divs [] now st) = true := by
      unfold isCacheFresh
      exact decide_eq_true hlt
    unfold loadAllDivisions
    rw [show (setSub .divs [] now st).divisionsCache = some [] from rfl]
    simp [hf]
  · intro now2 hlt
    unfold isCacheFresh
    exact decide_eq_true hlt
  · intro m2
    have hf : isCacheFresh (now + CACHE_TTL_MS) (setSub .divs [] now st) = false := by
      unfold isCacheFresh
      simp [setSub]
    unfold loadAllDivisions
    rw [show (setSub .divs [] now st).divisionsCache = some [] from rfl, hf]
    simp [fetchDivisions, setSub]
  · intro m2 now2
    unfold loadAllDivisions
    rw [show (cacheRefresh (setSub .divs [] now st)).divisionsCache = none from rfl]
    simp [fetchDivisions, setSub, cacheRefresh]

/-- Witness for `divisions_failure_cached` on the cold start state. -/
theorem divisions_failure_cached_witness :
    ∃ st2 : CacheState,
      loadAllDivisions (.error "boom") 0 initState = ([], st2) ∧
      st2.divisionsCache = some [] := by
  obtain ⟨st2, h1, h2, _⟩ := divisions_failure_cached "boom" 0 initState (Or.inl rfl)
  exact ⟨st2, h1, h2⟩

/-! ### C8 — `GET /data/:numericId` error handling -/

/-- C8 (counterexample): the identifier `12abc` is not a numeral, yet
the endpoint does not reject it with a 400 — `parseInt("12abc")` is
`12`, so the lookup proceeds with id `12` and (with no matching record)
answers 404 naming `12`. -/
theorem nonnumeric_id_not_400_refuted :
    dataEndpointResolve [] [] "12abc" = .notFound "No data for ID \"12\"" ∧
    (∀ msg : String, dataEndpointResolve [] [] "12abc" ≠ .badRequest msg) := by
  have h : dataEndpointResolve [] [] "12abc" = .notFound "No data for ID \"12\"" := by
    decide
  refine ⟨h, ?_⟩
  intro msg hbad
  rw [h] at hbad
  exact DataResp.noConfusion hbad

/-- C8 (amended): an identifier whose stripped form `parseInt` cannot
read at all (no leading digits) yields the 400 validation failure; an
identifier with a readable numeric prefix is truncated to that prefix;
a parsed id matching no record yields a 404 whose `error` message
contains the id that was searched for. -/
theorem data_id_errors_amended (allPoland : List (String × Fields))
    (divs : CacheMap) (idParam : String) :
    (parseIntJs (if startsWithD idParam then substringFrom1 idParam else idParam) = none →
      dataEndpointResolve allPoland divs idParam = .badRequest
        "Invalid ID. Please provide a valid numeric ID or 'd' + numeric ID for division records.") ∧
    (∀ n : Int, startsWithD idParam = false → parseIntJs idParam = some n →
      findMainByDataID allPoland n = none →
      dataEndpointResolve allPoland divs idParam =
        .notFound ("No data for ID \"" ++ toString n ++ "\"")) ∧
    (∀ n : Int, startsWithD idParam = true →
      parseIntJs (substringFrom1 idParam) = some n →
      findDivisionByDataID divs n = none →
      dataEndpointResolve allPoland divs idParam =
        .notFound ("No division data for ID \"d" ++ toString n ++ "\"")) := by
  refine ⟨?_, ?_, ?_⟩
  · intro h
    unfold dataEndpointResolve
    dsimp only
    rw [h]
  · intro n hsd hp hfind
    unfold dataEndpointResolve
    dsimp only
    rw [hsd]
    simp only [Bool.false_eq_true, if_false]
    rw [hp]
    dsimp only
    rw [hfind]
  · intro n hsd hp hfind
    unfold dataEndpointResolve
    dsimp only
    rw [hsd]
    simp only [if_true]
    rw [hp]
    dsimp only
    rw [hfind]

/-- Witness for `data_id_errors_amended`: a digit-free id gets the 400,
and the guaranteed-absent id `999999999` gets a 404 naming it. -/
theorem data_id_errors_amended_witness :
    dataEndpointResolve [] [] "zzz" = .badRequest
      "Invalid ID. Please provide a valid numeric ID or 'd' + numeric ID for division records." ∧
    dataEndpointResolve [] [] "999999999" =
      .notFound "No data for ID \"999999999\"" :=
  ⟨(data_id_errors_amended [] [] "zzz").1 (by decide),
   (data_id_errors_amended [] [] "999999999").2.1 999999999
     (by decide) (by decide) (by decide)⟩

/-! ### C9 — empty-title records in list endpoints -/

theorem insertByLe_perm {α : Type} (le : α → α → Bool) (x : α) (l : List α) :
    (insertByLe le x l).Perm (x :: l) := by
  induction l with
  | nil => exact List.Perm.refl _
  | cons y ys ih =>
    unfold insertByLe
    cases h : le x y
    · simp only [Bool.false_eq_true, if_false]
      exact (ih.cons y).trans (List.Perm.swap x y ys)
    · simp only [if_true]
      exact List.Perm.refl _

theorem sortByLe_perm {α : Type} (le : α → α → Bool) (l : List α) :
    (sortByLe le l).Perm l := by
  induction l with
  | nil => exact List.Perm.refl _
  | cons x xs ih => exact (insertByLe_perm le x (sortByLe le xs)).trans (ih.cons x)

/-- A one-category cache for the country `Poland` linking one main
record. -/
def c9Cats : CacheMap :=
  [("cat1", [("TitleEN", .str "Poland"), ("Poland", .arr ["prec1"])])]

/-- A main table whose only record has the all-whitespace canonical
title `" "`. -/
def c9Poland : List (String × Fields) :=
  [("prec1", [("Title", .str " "), ("DataID", .num 7)])]

/-- C9 (counterexample): `GET /dataset/:country` applies no title
filter — the record whose canonical title is the all-whitespace `" "`
(rejected by the `/datasets` filter) is still emitted as an item. -/
theorem country_list_title_filter_refuted :
    isValidTitle [("Title", JsVal.str " "), ("DataID", JsVal.num 7)] = false ∧
    datasetCountryEndpoint c9Cats [] c9Poland "poland" "EN" (fun _ => 0) =
      .ok [⟨.num 7, ⟨some (.str " "), .str "", .str "", .str ""⟩⟩] :=
  ⟨by decide, rfl⟩

/-- C9 (amended): `GET /datasets` never emits an item for a record
whose canonical `Title` is empty or all-whitespace — every emitted item
comes from a record passing the title filter; `GET /dataset/:country`
applies no such filter, and its division and main items may carry
empty or whitespace titles. -/
theorem datasets_title_filter_amended (catMap : CacheMap) (lang : String)
    (records : List (String × Fields)) (dateVal : JsVal → Int) :
    ∀ it ∈ datasetsItems catMap lang records dateVal,
      ∃ rid f, (rid, f) ∈ records ∧ isValidTitle f = true ∧
        it = datasetsItem catMap lang rid f := by
  intro it hit
  unfold datasetsItems sortByDateDesc at hit
  have hmem := (sortByLe_perm (fun a b => dateVal b.meta.lastUpdate ≤ dateVal a.meta.lastUpdate)
    ((records.filter (fun r => isValidTitle r.2)).map
      (fun r => datasetsItem catMap lang r.1 r.2))).mem_iff.mp hit
  obtain ⟨r, hr, heq⟩ := List.mem_map.mp hmem
  obtain ⟨hrin, hvalid⟩ := List.mem_filter.mp hr
  exact ⟨r.1, r.2, hrin, hvalid, heq.symm⟩

/-- A one-record main table with a valid title. -/
def c9ValidRecords : List (String × Fields) := [("r1", [("Title", .str "T")])]

/-- Witness for `datasets_title_filter_amended` on a singleton table. -/
theorem datasets_title_filter_amended_witness :
    ∃ rid f, (rid, f) ∈ c9ValidRecords ∧ isValidTitle f = true ∧
      datasetsItem [] "EN" "r1" [("Title", JsVal.str "T")] =
        datasetsItem [] "EN" rid f :=
  datasets_title_filter_amended [] "EN" c9ValidRecords (fun _ => 0)
    (datasetsItem [] "EN" "r1" [("Title", JsVal.str "T")]) (by decide)

end WorldIndex
